import Mathlib

/-!
Verification of the ATM-System repository's account ledger core.

The definitions below are a shallow embedding of the Python source:

* `src/models.py` / `src/backend/models/schemas.py` — request validation
  (`TransactionRequest`, `TransferRequest`, `CreateTimeDepositRequest`) and
  the `Account` data model;
* `src/legacy/database.py` (`AccountDatabase`) — the in-memory store with
  deposits, withdrawals, transfers and time deposits, which is the fullest
  of the repository's store implementations and the one the legacy routers
  are wired to;
* `src/routers/accounts.py` and `src/legacy/routers/accounts.py` — the
  endpoint handlers (they are textually identical for withdraw/deposit; the
  legacy file additionally has transfer and time-deposit endpoints).

Python `Decimal` values are embedded as `ℚ` (all Decimal arithmetic in the
source stays well inside the default 28-digit context, so it is exact and
agrees with `ℚ`).  `datetime.now()` is embedded as an explicit `now : ℕ`
parameter (seconds); `uuid` deposit ids as an explicit `String` parameter.
Python exceptions become an `Except` error value; a raising path performs no
state mutation in the source (all checks precede the mutations), which the
embedding mirrors by returning `Except.error` before constructing any new
state.
-/

namespace ATM

/-- Account record, from `Account` in `src/models.py`: a 6-digit account
number, a `Decimal` balance and an optional last-transaction timestamp
(`created_at` is never read by any operation and is omitted). -/
structure Account where
  account_number : String
  balance : ℚ
  last_transaction : Option Nat
deriving DecidableEq

/-- Time deposit record, from `TimeDeposit` in the models file
(`src/backend/models/schemas.py`): principal `amount`, duration in months,
annual `interest_rate`, maturity timestamp and the matured flag
(`created_at` is never read by any operation and is omitted). -/
structure TimeDeposit where
  deposit_id : String
  account_number : String
  amount : ℚ
  duration_months : Nat
  interest_rate : ℚ
  maturity_date : Nat
  is_matured : Bool
deriving DecidableEq

/-- Successful-transaction payload, from `TransactionResponse` in
`src/models.py` (the constant `success`/`message` strings are omitted). -/
structure TransactionResponse where
  account_number : String
  previous_balance : ℚ
  new_balance : ℚ
  transaction_amount : ℚ
  timestamp : Nat
deriving DecidableEq

/-- Error taxonomy of the ledger, from `src/legacy/exceptions.py`
(`AccountNotFoundError`, `InsufficientFundsError`, `InvalidAmountError`),
the pydantic validation failures (`invalidAmount`, `invalidDuration`) and
the `ValueError` messages raised by `src/legacy/database.py` for the
same-account check and the time-deposit failure modes. -/
inductive AtmError where
  | accountNotFound (account_number : String)
  | insufficientFunds (account_number : String) (balance : ℚ) (amount : ℚ)
  | invalidAmount (amount : ℚ)
  | invalidDuration (duration_months : Nat)
  | sameAccount
  | depositNotFound (deposit_id : String)
  | alreadyMatured (deposit_id : String)
  | notYetMature (deposit_id : String)
deriving DecidableEq

/-- A decimal literal as it reaches pydantic: an integer mantissa and the
number of fraction digits it was written with.  `Decimal('100.123')` is
`⟨100123, 3⟩`; its `as_tuple().exponent` is `-scale`. -/
structure RawDecimal where
  mantissa : Int
  scale : Nat
deriving DecidableEq

/-- The rational value of a raw decimal input. -/
def RawDecimal.toRat (d : RawDecimal) : ℚ :=
  (d.mantissa : ℚ) / (10 : ℚ) ^ d.scale

/-- Amount validation from `TransactionRequest` in `src/models.py` (and the
identical validators on `TransferRequest` / `CreateTimeDepositRequest` in
`src/backend/models/schemas.py`): pydantic first enforces `gt=0`, then
`le=ceiling` (10000 for transactions and transfers, 100000 for time
deposits), then the custom validator rejects
`as_tuple().exponent < -2`, i.e. more than 2 fraction digits; the final
`quantize(Decimal('0.01'))` does not change the value of an input that
passed.  Everything happens before the request handler (and hence before
any store access). -/
def validateAmount (ceiling : ℚ) (d : RawDecimal) : Except AtmError ℚ :=
  if d.toRat ≤ 0 then .error (.invalidAmount d.toRat)
  else if ceiling < d.toRat then .error (.invalidAmount d.toRat)
  else if 2 < d.scale then .error (.invalidAmount d.toRat)
  else .ok d.toRat

/-- Duration validation from `CreateTimeDepositRequest`
(`duration_months: int = Field(ge=1, le=60)`). -/
def validateDuration (duration_months : Nat) : Except AtmError Nat :=
  if duration_months < 1 ∨ 60 < duration_months then
    .error (.invalidDuration duration_months)
  else .ok duration_months

/-- The mutable store of `AccountDatabase` in `src/legacy/database.py`: the
`accounts` dict and the `time_deposits` dict, embedded as lookup
functions. -/
structure AtmState where
  accounts : String → Option Account
  time_deposits : String → Option TimeDeposit

/-- `AccountDatabase.update_account`: stamps `last_transaction` with the
current time and stores the record under its own `account_number` key. -/
def AtmState.update_account (s : AtmState) (now : Nat) (a : Account) : AtmState :=
  { s with accounts := fun k =>
      if k = a.account_number then some { a with last_transaction := some now }
      else s.accounts k }

/-- Storing a time deposit under its id
(`self.time_deposits[deposit_id] = time_deposit`). -/
def AtmState.put_time_deposit (s : AtmState) (id : String) (td : TimeDeposit) : AtmState :=
  { s with time_deposits := fun k => if k = id then some td else s.time_deposits k }

/-- The seeded store from `AccountDatabase.__init__`: accounts `123456`
(1000.00), `789012` (500.00) and `555444` (0.00), no time deposits. -/
def initial_accounts : String → Option Account := fun n =>
  if n = "123456" then some { account_number := "123456", balance := 1000, last_transaction := none }
  else if n = "789012" then some { account_number := "789012", balance := 500, last_transaction := none }
  else if n = "555444" then some { account_number := "555444", balance := 0, last_transaction := none }
  else none

/-- The freshly initialized database (`db = AccountDatabase()`). -/
def initial_state : AtmState :=
  { accounts := initial_accounts, time_deposits := fun _ => none }

/-- The duration-keyed annual interest rate table from
`AccountDatabase.__init__` (`self.interest_rates`), in the ascending key
order `sorted(...)` produces. -/
def interest_rates : List (Nat × ℚ) :=
  [(1, 0.01), (3, 0.015), (6, 0.02), (12, 0.025),
   (24, 0.03), (36, 0.035), (48, 0.04), (60, 0.045)]

/-- `AccountDatabase.get_interest_rate`: walk the sorted durations and
return the rate of the first tier with `duration_months <= duration`; if
none qualifies, return the rate of the largest tier
(`self.interest_rates[max(available_durations)]`, the last list entry). -/
def get_interest_rate (duration_months : Nat) : ℚ :=
  match interest_rates.find? (fun p => decide (duration_months ≤ p.1)) with
  | some p => p.2
  | none => ((interest_rates.getLast?).map Prod.snd).getD 0

/-- `AccountDatabase.transfer_money`: look up sender then recipient (each
raising not-found first for the sender), check the sender's funds, then move
`amount` and store both records through `update_account`.  The source
operates on the two live account objects; this embedding is faithful for
`sender_account ≠ recipient_account`, which the only caller
(`transfer_money` in `src/legacy/routers/accounts.py`) has already checked.
The returned account values carry the `last_transaction` stamp that
`update_account` set on the shared objects. -/
def transfer_money (s : AtmState) (now : Nat) (sender_account recipient_account : String)
    (amount : ℚ) : Except AtmError (AtmState × Account × Account) :=
  match s.accounts sender_account with
  | none => .error (.accountNotFound sender_account)
  | some sender =>
    match s.accounts recipient_account with
    | none => .error (.accountNotFound recipient_account)
    | some recipient =>
      if sender.balance < amount then
        .error (.insufficientFunds sender_account sender.balance amount)
      else
        let sender2 := { sender with balance := sender.balance - amount }
        let recipient2 := { recipient with balance := recipient.balance + amount }
        let s2 := (s.update_account now sender2).update_account now recipient2
        .ok (s2, { sender2 with last_transaction := some now },
             { recipient2 with last_transaction := some now })

/-- `AccountDatabase.create_time_deposit`: check the account and its funds,
deduct the principal through `update_account`, pick the tier rate, set the
maturity timestamp (`+1` second for a test deposit, else
`duration_months * 30` days) and store the new deposit under the
uuid-generated `deposit_id` (passed here as a parameter). -/
def create_time_deposit (s : AtmState) (now : Nat) (deposit_id : String)
    (account_number : String) (amount : ℚ) (duration_months : Nat)
    (is_test_deposit : Bool) : Except AtmError (AtmState × TimeDeposit) :=
  match s.accounts account_number with
  | none => .error (.accountNotFound account_number)
  | some account =>
    if account.balance < amount then
      .error (.insufficientFunds account_number account.balance amount)
    else
      let account2 := { account with balance := account.balance - amount }
      let s2 := s.update_account now account2
      let maturity_date := if is_test_deposit then now + 1 else now + duration_months * 30 * 86400
      let td : TimeDeposit :=
        { deposit_id := deposit_id, account_number := account_number, amount := amount,
          duration_months := duration_months, interest_rate := get_interest_rate duration_months,
          maturity_date := maturity_date, is_matured := false }
      .ok (s2.put_time_deposit deposit_id td, td)

/-- `AccountDatabase.mature_time_deposit`: not-found, already-matured and
(unless `force_mature`) not-yet-mature checks, then credit
`amount + amount * interest_rate * Decimal(str(duration_months / 12))` back
to the owning account and flip `is_matured`.  `years` is passed explicitly:
it stands for `Decimal(str(deposit.duration_months / 12))`, where `/` is
Python float division and `str` prints the shortest round-trip decimal.
Whenever `duration_months` is a multiple of 3 the quotient is a dyadic
rational (`k/4`), exactly representable as a binary double and printed
exactly by `str`, so there `years = duration_months / 12` as a rational;
the theorems below only pin `years` down in that case. -/
def mature_time_deposit (s : AtmState) (now : Nat) (deposit_id : String)
    (force_mature : Bool) (years : ℚ) :
    Except AtmError (AtmState × TimeDeposit × ℚ) :=
  match s.time_deposits deposit_id with
  | none => .error (.depositNotFound deposit_id)
  | some deposit =>
    if deposit.is_matured then
      .error (.alreadyMatured deposit_id)
    else if force_mature = false ∧ now < deposit.maturity_date then
      .error (.notYetMature deposit_id)
    else
      let interest_earned := deposit.amount * deposit.interest_rate * years
      let final_amount := deposit.amount + interest_earned
      match s.accounts deposit.account_number with
      | none => .error (.accountNotFound deposit.account_number)
      | some account =>
        let account2 := { account with balance := account.balance + final_amount }
        let s2 := s.update_account now account2
        let deposit2 := { deposit with is_matured := true }
        .ok (s2.put_time_deposit deposit_id deposit2, deposit2, final_amount)

/-- The `POST /accounts/.../deposit` handler (`deposit_money` in
`src/routers/accounts.py`): pydantic validates the amount, then the handler
reads the account, adds the amount and stores it via `update_account`.
There is no upper check against the 1,000,000.00 balance bound: the
`Field(le=1000000)` annotation on `Account.balance` is only enforced when an
`Account` model is constructed, and the handler mutates the existing
object in place. -/
def deposit_money (s : AtmState) (now : Nat) (account_number : String)
    (raw : RawDecimal) : Except AtmError (AtmState × TransactionResponse) :=
  match validateAmount 10000 raw with
  | .error e => .error e
  | .ok amount =>
    match s.accounts account_number with
    | none => .error (.accountNotFound account_number)
    | some account =>
      let previous_balance := account.balance
      let account2 := { account with balance := account.balance + amount }
      let s2 := s.update_account now account2
      .ok (s2, { account_number := account_number, previous_balance := previous_balance,
                 new_balance := account2.balance, transaction_amount := amount,
                 timestamp := now })

/-- The `POST /accounts/.../withdraw` handler (`withdraw_money` in
`src/routers/accounts.py`): pydantic validates the amount, the handler
reads the account, raises `InsufficientFundsError(account_number, balance,
amount)` if the balance is short, else subtracts and stores. -/
def withdraw_money (s : AtmState) (now : Nat) (account_number : String)
    (raw : RawDecimal) : Except AtmError (AtmState × TransactionResponse) :=
  match validateAmount 10000 raw with
  | .error e => .error e
  | .ok amount =>
    match s.accounts account_number with
    | none => .error (.accountNotFound account_number)
    | some account =>
      if account.balance < amount then
        .error (.insufficientFunds account_number account.balance amount)
      else
        let previous_balance := account.balance
        let account2 := { account with balance := account.balance - amount }
        let s2 := s.update_account now account2
        .ok (s2, { account_number := account_number, previous_balance := previous_balance,
                   new_balance := account2.balance, transaction_amount := amount,
                   timestamp := now })

/-- The `POST /accounts/.../transfer` handler (`transfer_money` in
`src/legacy/routers/accounts.py`): pydantic validates the amount first,
then the handler rejects sender == recipient (raising the `ValueError` the
spec's taxonomy calls `SameAccount`) before calling
`AccountDatabase.transfer_money`.  The handler's `except` clause re-raises
the database's not-found/insufficient errors with the same identifiers
(checking the sender's existence first), so the mapping is the identity
here. -/
def transfer_money_ep (s : AtmState) (now : Nat) (account_number recipient_account : String)
    (raw : RawDecimal) : Except AtmError (AtmState × Account × Account) :=
  match validateAmount 10000 raw with
  | .error e => .error e
  | .ok amount =>
    if account_number = recipient_account then .error .sameAccount
    else transfer_money s now account_number recipient_account amount

/-- The `POST /accounts/.../time-deposits` handler (`create_time_deposit`
in `src/legacy/routers/accounts.py`): pydantic validates the amount
(ceiling 100000) and the duration (1..60), then calls
`AccountDatabase.create_time_deposit`. -/
def create_time_deposit_ep (s : AtmState) (now : Nat) (deposit_id : String)
    (account_number : String) (raw : RawDecimal) (duration_months : Nat)
    (is_test_deposit : Bool) : Except AtmError (AtmState × TimeDeposit) :=
  match validateAmount 100000 raw with
  | .error e => .error e
  | .ok amount =>
    match validateDuration duration_months with
    | .error e => .error e
    | .ok duration => create_time_deposit s now deposit_id account_number amount duration is_test_deposit

/-- One validated-input operation against the store, covering every
balance-affecting endpoint of the service.  The uuid deposit id of a
creation and the `Decimal(str(duration_months / 12))` years factor of a
maturation are carried as payload (see `create_time_deposit` and
`mature_time_deposit`). -/
inductive AtmOp where
  | deposit (account_number : String) (raw : RawDecimal)
  | withdraw (account_number : String) (raw : RawDecimal)
  | transfer (sender recipient : String) (raw : RawDecimal)
  | createTD (account_number : String) (raw : RawDecimal) (duration_months : Nat)
      (is_test_deposit : Bool) (deposit_id : String)
  | matureTD (deposit_id : String) (force_mature : Bool) (years : ℚ)

/-- Dispatch one operation to its endpoint handler, keeping the resulting
store state. -/
def runOp (s : AtmState) (now : Nat) : AtmOp → Except AtmError AtmState
  | .deposit n raw =>
    match deposit_money s now n raw with
    | .ok (s2, _) => .ok s2
    | .error e => .error e
  | .withdraw n raw =>
    match withdraw_money s now n raw with
    | .ok (s2, _) => .ok s2
    | .error e => .error e
  | .transfer a b raw =>
    match transfer_money_ep s now a b raw with
    | .ok (s2, _, _) => .ok s2
    | .error e => .error e
  | .createTD n raw d t id =>
    match create_time_deposit_ep s now id n raw d t with
    | .ok (s2, _) => .ok s2
    | .error e => .error e
  | .matureTD id f y =>
    match mature_time_deposit s now id f y with
    | .ok (s2, _, _) => .ok s2
    | .error e => .error e

/-- The store state visible after an operation: the new state on success,
the untouched previous state on any error (in the source every raising path
runs before any mutation). -/
def stateAfter (s : AtmState) (r : Except AtmError AtmState) : AtmState :=
  match r with
  | .ok s2 => s2
  | .error _ => s

/-- Fold a list of timestamped operations over the store. -/
def runTrace (s : AtmState) : List (Nat × AtmOp) → AtmState
  | [] => s
  | (now, op) :: rest => runTrace (stateAfter s (runOp s now op)) rest

/-- Whether a request succeeded. -/
def isOk {α : Type} : Except AtmError α → Bool
  | .ok _ => true
  | .error _ => false

/-- The balance the store holds for an account number. -/
def balanceIn (s : AtmState) (n : String) : Option ℚ :=
  (s.accounts n).map Account.balance

/-- The transaction payload of a deposit/withdraw result. -/
def respOf (r : Except AtmError (AtmState × TransactionResponse)) : Option TransactionResponse :=
  match r with
  | .ok (_, resp) => some resp
  | .error _ => none

/-- The `final_amount` credited by a maturation result. -/
def finalAmountOf (r : Except AtmError (AtmState × TimeDeposit × ℚ)) : Option ℚ :=
  match r with
  | .ok (_, _, f) => some f
  | .error _ => none

/-- The matured flag of the stored deposit with the given id. -/
def tdMatured (s : AtmState) (id : String) : Option Bool :=
  (s.time_deposits id).map TimeDeposit.is_matured

/-- The store state after a transfer request (unchanged on failure). -/
def runTransfer (s : AtmState) (now : Nat) (a b : String) (raw : RawDecimal) : AtmState :=
  stateAfter s (runOp s now (.transfer a b raw))

/-- Every account the store holds has a non-negative balance. -/
def BalancesNonneg (s : AtmState) : Prop :=
  ∀ n a, s.accounts n = some a → 0 ≤ a.balance

/-- Every stored time deposit has non-negative principal and rate (both
hold by construction: the principal passed amount validation and the rate
comes from the tier table). -/
def DepositsWF (s : AtmState) : Prop :=
  ∀ id td, s.time_deposits id = some td → 0 ≤ td.amount ∧ 0 ≤ td.interest_rate

/-- The store invariant carried through every operation. -/
def Invariant (s : AtmState) : Prop :=
  BalancesNonneg s ∧ DepositsWF s

/-- The years payload of a maturation is non-negative.  This is true of
every value `Decimal(str(duration_months / 12))` the source can compute,
since `duration_months ≥ 0`. -/
def AtmOp.yearsNonneg : AtmOp → Prop
  | .matureTD _ _ y => 0 ≤ y
  | _ => True

instance (op : AtmOp) : Decidable op.yearsNonneg :=
  match op with
  | .deposit _ _ => inferInstanceAs (Decidable True)
  | .withdraw _ _ => inferInstanceAs (Decidable True)
  | .transfer _ _ _ => inferInstanceAs (Decidable True)
  | .createTD _ _ _ _ _ => inferInstanceAs (Decidable True)
  | .matureTD _ _ y => inferInstanceAs (Decidable (0 ≤ y))

/-- The uuid deposit id a creation carries is fresh for the store it runs
against (uuid4 collisions are not modelled). -/
def AtmOp.freshId (s : AtmState) : AtmOp → Prop
  | .createTD _ _ _ _ id => s.time_deposits id = none
  | _ => True

instance (s : AtmState) (op : AtmOp) : Decidable (op.freshId s) :=
  match op with
  | .deposit _ _ => inferInstanceAs (Decidable True)
  | .withdraw _ _ => inferInstanceAs (Decidable True)
  | .transfer _ _ _ => inferInstanceAs (Decidable True)
  | .createTD _ _ _ _ id => inferInstanceAs (Decidable (s.time_deposits id = none))
  | .matureTD _ _ _ => inferInstanceAs (Decidable True)

/-- The two states agree on every account outside the given key list. -/
def AgreesOutside (s s2 : AtmState) (ks : List String) : Prop :=
  ∀ k, k ∉ ks → s2.accounts k = s.accounts k

/-- Every listed account exists and carries `last_transaction = some now`. -/
def StampedAt (s2 : AtmState) (ks : List String) (now : Nat) : Prop :=
  ∀ k, k ∈ ks → ∃ a, s2.accounts k = some a ∧ a.last_transaction = some now

/-- Spec-worded rounding, for comparison with the code: round a decimal to
2 fraction digits, rounding half up. -/
def round_half_up_2 (x : ℚ) : ℚ :=
  (⌊x * 100 + 1 / 2⌋ : ℚ) / 100

/-- Spec-worded maturity payout (from §4.3 of the specification): interest
is `principal × annual_rate × (duration_months / 12)` in exact decimal
arithmetic and `final_amount = principal + interest` is rounded to 2
fraction digits half-up.  Compared against the code's
`mature_time_deposit` below. -/
def spec_final_amount (principal annual_rate : ℚ) (duration_months : Nat) : ℚ :=
  round_half_up_2 (principal + principal * annual_rate * ((duration_months : ℚ) / 12))

/-- The rate `r` is the one attached to the smallest tier of the rate table
whose duration is at least `d` (the spec's tie-break rule, stated as a
property). -/
def IsSmallestTierRate (d : Nat) (r : ℚ) : Prop :=
  ∃ p ∈ interest_rates, d ≤ p.1 ∧ (∀ q ∈ interest_rates, d ≤ q.1 → p.1 ≤ q.1) ∧ r = p.2

instance (d : Nat) (r : ℚ) : Decidable (IsSmallestTierRate d r) := by
  unfold IsSmallestTierRate
  infer_instance

/-- A reachable store with balance 991,000.00 on account `123456`: the
seeded store after 99 valid deposits of 10,000.00 each. -/
def c3_state : AtmState :=
  runTrace initial_state (List.replicate 99 (0, .deposit "123456" ⟨1000000, 2⟩))

/-- The creation-then-forced-maturation pipeline of a 100.01 deposit for 3
months: create against the seeded store, then mature with
`years = Decimal(str(3 / 12)) = 0.25`. -/
def c4_run : Except AtmError (AtmState × TimeDeposit × ℚ) :=
  match create_time_deposit_ep initial_state 0 "d1" "123456" ⟨10001, 2⟩ 3 false with
  | .ok (s1, _) => mature_time_deposit s1 1 "d1" true (1 / 4)
  | .error e => .error e

/-- The store of the spec's concrete scenario 3 right after
`CreateTimeDeposit(123456, 100.00, 12)`: the principal 100.00 has been
deducted (balance 900.00) and an active 12-month deposit at the table rate
for 12 months is stored under `dep1`. -/
def scenario3_state : AtmState :=
  { accounts := fun n =>
      if n = "123456" then
        some { account_number := "123456", balance := 900, last_transaction := some 0 }
      else initial_accounts n,
    time_deposits := fun k =>
      if k = "dep1" then
        some { deposit_id := "dep1", account_number := "123456", amount := 100,
               duration_months := 12, interest_rate := get_interest_rate 12,
               maturity_date := 12 * 30 * 86400, is_matured := false }
      else none }

theorem validateAmount_ok {c : ℚ} {d : RawDecimal} {q : ℚ}
    (h : validateAmount c d = .ok q) :
    0 < q ∧ q ≤ c ∧ q = d.toRat ∧ d.scale ≤ 2 := by
  unfold validateAmount at h
  by_cases h1 : d.toRat ≤ 0
  · rw [if_pos h1] at h; exact absurd h (by simp)
  · rw [if_neg h1] at h
    by_cases h2 : c < d.toRat
    · rw [if_pos h2] at h; exact absurd h (by simp)
    · rw [if_neg h2] at h
      by_cases h3 : 2 < d.scale
      · rw [if_pos h3] at h; exact absurd h (by simp)
      · rw [if_neg h3] at h
        have hq : d.toRat = q := by
          simpa using h
        subst hq
        exact ⟨lt_of_not_le h1, le_of_not_lt h2, rfl, le_of_not_lt h3⟩

theorem validateAmount_valid {c : ℚ} {d : RawDecimal}
    (h1 : 0 < d.toRat) (h2 : d.toRat ≤ c) (h3 : d.scale ≤ 2) :
    validateAmount c d = .ok d.toRat := by
  unfold validateAmount
  rw [if_neg (not_le.mpr h1), if_neg (not_lt.mpr h2), if_neg (not_lt.mpr h3)]

theorem validateAmount_invalid {c : ℚ} {d : RawDecimal}
    (h : 2 < d.scale ∨ d.toRat ≤ 0 ∨ c < d.toRat) :
    validateAmount c d = .error (.invalidAmount d.toRat) := by
  unfold validateAmount
  by_cases h1 : d.toRat ≤ 0
  · rw [if_pos h1]
  · rw [if_neg h1]
    by_cases h2 : c < d.toRat
    · rw [if_pos h2]
    · rw [if_neg h2]
      have h3 : 2 < d.scale := by
        rcases h with h | h | h
        · exact h
        · exact absurd h h1
        · exact absurd h h2
      rw [if_pos h3]

theorem update_account_accounts (s : AtmState) (now : Nat) (a : Account) (k : String) :
    (s.update_account now a).accounts k =
      if k = a.account_number then some { a with last_transaction := some now }
      else s.accounts k := rfl

theorem update_account_time_deposits (s : AtmState) (now : Nat) (a : Account) :
    (s.update_account now a).time_deposits = s.time_deposits := rfl

theorem put_time_deposit_accounts (s : AtmState) (id : String) (td : TimeDeposit) :
    (s.put_time_deposit id td).accounts = s.accounts := rfl

theorem balances_nonneg_update {s : AtmState} {now : Nat} {a : Account}
    (h : BalancesNonneg s) (ha : 0 ≤ a.balance) :
    BalancesNonneg (s.update_account now a) := by
  intro n b hb
  rw [update_account_accounts] at hb
  by_cases hk : n = a.account_number
  · rw [if_pos hk] at hb
    injection hb with hb
    subst hb
    exact ha
  · rw [if_neg hk] at hb
    exact h n b hb

theorem deposits_wf_update {s : AtmState} {now : Nat} {a : Account}
    (h : DepositsWF s) : DepositsWF (s.update_account now a) := h

theorem balances_nonneg_put {s : AtmState} {id : String} {td : TimeDeposit}
    (h : BalancesNonneg s) : BalancesNonneg (s.put_time_deposit id td) := h

theorem deposits_wf_put {s : AtmState} {id : String} {td : TimeDeposit}
    (h : DepositsWF s) (h1 : 0 ≤ td.amount) (h2 : 0 ≤ td.interest_rate) :
    DepositsWF (s.put_time_deposit id td) := by
  intro i t ht
  have ht2 : (if i = id then some td else s.time_deposits i) = some t := ht
  by_cases hk : i = id
  · rw [if_pos hk] at ht2
    injection ht2 with ht2
    subst ht2
    exact ⟨h1, h2⟩
  · rw [if_neg hk] at ht2
    exact h i t ht2

theorem deposit_money_ok {s : AtmState} {now : Nat} {n : String} {raw : RawDecimal}
    {s2 : AtmState} {r : TransactionResponse}
    (h : deposit_money s now n raw = .ok (s2, r)) :
    ∃ acct, validateAmount 10000 raw = .ok raw.toRat ∧ s.accounts n = some acct ∧
      s2 = s.update_account now { acct with balance := acct.balance + raw.toRat } ∧
      r = { account_number := n, previous_balance := acct.balance,
            new_balance := acct.balance + raw.toRat, transaction_amount := raw.toRat,
            timestamp := now } := by
  unfold deposit_money at h
  split at h
  · exact absurd h (by simp)
  · rename_i amount hval
    obtain ⟨hpos, hle, heq, hscale⟩ := validateAmount_ok hval
    subst heq
    split at h
    · exact absurd h (by simp)
    · rename_i acct hacc
      rw [Except.ok.injEq, Prod.mk.injEq] at h
      exact ⟨acct, hval, hacc, h.1.symm, h.2.symm⟩

theorem withdraw_money_ok {s : AtmState} {now : Nat} {n : String} {raw : RawDecimal}
    {s2 : AtmState} {r : TransactionResponse}
    (h : withdraw_money s now n raw = .ok (s2, r)) :
    ∃ acct, validateAmount 10000 raw = .ok raw.toRat ∧ s.accounts n = some acct ∧
      ¬ acct.balance < raw.toRat ∧
      s2 = s.update_account now { acct with balance := acct.balance - raw.toRat } ∧
      r = { account_number := n, previous_balance := acct.balance,
            new_balance := acct.balance - raw.toRat, transaction_amount := raw.toRat,
            timestamp := now } := by
  unfold withdraw_money at h
  split at h
  · exact absurd h (by simp)
  · rename_i amount hval
    obtain ⟨hpos, hle, heq, hscale⟩ := validateAmount_ok hval
    subst heq
    split at h
    · exact absurd h (by simp)
    · rename_i acct hacc
      split at h
      · exact absurd h (by simp)
      · rename_i hfunds
        rw [Except.ok.injEq, Prod.mk.injEq] at h
        exact ⟨acct, hval, hacc, hfunds, h.1.symm, h.2.symm⟩

theorem transfer_money_ok {s : AtmState} {now : Nat} {a b : String} {amt : ℚ}
    {s2 : AtmState} {sa ra : Account}
    (h : transfer_money s now a b amt = .ok (s2, sa, ra)) :
    ∃ A B, s.accounts a = some A ∧ s.accounts b = some B ∧ ¬ A.balance < amt ∧
      s2 = (s.update_account now { A with balance := A.balance - amt }).update_account
             now { B with balance := B.balance + amt } ∧
      sa = { A with balance := A.balance - amt, last_transaction := some now } ∧
      ra = { B with balance := B.balance + amt, last_transaction := some now } := by
  unfold transfer_money at h
  split at h
  · exact absurd h (by simp)
  · rename_i A hA
    split at h
    · exact absurd h (by simp)
    · rename_i B hB
      split at h
      · exact absurd h (by simp)
      · rename_i hfunds
        rw [Except.ok.injEq, Prod.mk.injEq] at h
        rw [Prod.mk.injEq] at h
        exact ⟨A, B, hA, hB, hfunds, h.1.symm, h.2.1.symm, h.2.2.symm⟩

theorem transfer_money_ep_ok {s : AtmState} {now : Nat} {a b : String} {raw : RawDecimal}
    {s2 : AtmState} {sa ra : Account}
    (h : transfer_money_ep s now a b raw = .ok (s2, sa, ra)) :
    validateAmount 10000 raw = .ok raw.toRat ∧ a ≠ b ∧
      transfer_money s now a b raw.toRat = .ok (s2, sa, ra) := by
  unfold transfer_money_ep at h
  split at h
  · exact absurd h (by simp)
  · rename_i amount hval
    obtain ⟨hpos, hle, heq, hscale⟩ := validateAmount_ok hval
    subst heq
    split at h
    · exact absurd h (by simp)
    · rename_i hne
      exact ⟨hval, hne, h⟩

theorem create_time_deposit_ok {s : AtmState} {now : Nat} {id n : String} {amt : ℚ}
    {d : Nat} {t : Bool} {s2 : AtmState} {td : TimeDeposit}
    (h : create_time_deposit s now id n amt d t = .ok (s2, td)) :
    ∃ acct, s.accounts n = some acct ∧ ¬ acct.balance < amt ∧
      td = { deposit_id := id, account_number := n, amount := amt, duration_months := d,
             interest_rate := get_interest_rate d,
             maturity_date := if t then now + 1 else now + d * 30 * 86400,
             is_matured := false } ∧
      s2 = (s.update_account now { acct with balance := acct.balance - amt }).put_time_deposit
             id td := by
  unfold create_time_deposit at h
  split at h
  · exact absurd h (by simp)
  · rename_i acct hacc
    split at h
    · exact absurd h (by simp)
    · rename_i hfunds
      rw [Except.ok.injEq, Prod.mk.injEq] at h
      refine ⟨acct, hacc, hfunds, h.2.symm, ?_⟩
      rw [← h.1, ← h.2]

theorem create_time_deposit_ep_ok {s : AtmState} {now : Nat} {id n : String}
    {raw : RawDecimal} {d : Nat} {t : Bool} {s2 : AtmState} {td : TimeDeposit}
    (h : create_time_deposit_ep s now id n raw d t = .ok (s2, td)) :
    validateAmount 100000 raw = .ok raw.toRat ∧ 1 ≤ d ∧ d ≤ 60 ∧
      create_time_deposit s now id n raw.toRat d t = .ok (s2, td) := by
  unfold create_time_deposit_ep at h
  split at h
  · exact absurd h (by simp)
  · rename_i amount hval
    obtain ⟨hpos, hle, heq, hscale⟩ := validateAmount_ok hval
    subst heq
    split at h
    · exact absurd h (by simp)
    · rename_i duration hdur
      unfold validateDuration at hdur
      split at hdur
      · exact absurd hdur (by simp)
      · rename_i hrange
        push_neg at hrange
        rw [Except.ok.injEq] at hdur
        subst hdur
        exact ⟨hval, hrange.1, hrange.2, h⟩

theorem mature_time_deposit_ok {s : AtmState} {now : Nat} {id : String} {f : Bool}
    {y : ℚ} {s2 : AtmState} {td2 : TimeDeposit} {fin : ℚ}
    (h : mature_time_deposit s now id f y = .ok (s2, td2, fin)) :
    ∃ td acct, s.time_deposits id = some td ∧ td.is_matured = false ∧
      ¬ (f = false ∧ now < td.maturity_date) ∧
      s.accounts td.account_number = some acct ∧
      fin = td.amount + td.amount * td.interest_rate * y ∧
      td2 = { td with is_matured := true } ∧
      s2 = (s.update_account now
              { acct with balance := acct.balance + (td.amount + td.amount * td.interest_rate * y) }).put_time_deposit
             id { td with is_matured := true } := by
  unfold mature_time_deposit at h
  split at h
  · exact absurd h (by simp)
  · rename_i td htd
    split at h
    · exact absurd h (by simp)
    · rename_i hmat
      split at h
      · exact absurd h (by simp)
      · rename_i hdate
        split at h
        · exact absurd h (by simp)
        · rename_i acct hacc
          rw [Except.ok.injEq, Prod.mk.injEq] at h
          rw [Prod.mk.injEq] at h
          refine ⟨td, acct, htd, ?_, hdate, hacc, h.2.2.symm, h.2.1.symm, h.1.symm⟩
          simpa using hmat

theorem interest_rates_nonneg : ∀ p ∈ interest_rates, 0 ≤ p.2 := by
  with_unfolding_all decide

theorem get_interest_rate_nonneg (d : Nat) : 0 ≤ get_interest_rate d := by
  unfold get_interest_rate
  split
  · rename_i p hf
    exact interest_rates_nonneg p (List.mem_of_find?_eq_some hf)
  · with_unfolding_all decide

theorem initial_state_invariant : Invariant initial_state := by
  constructor
  · intro n a h
    have h2 : initial_accounts n = some a := h
    unfold initial_accounts at h2
    split at h2
    · injection h2 with h2; subst h2; norm_num
    · split at h2
      · injection h2 with h2; subst h2; norm_num
      · split at h2
        · injection h2 with h2; subst h2; norm_num
        · exact absurd h2 (by simp)
  · intro id td h
    exact absurd h (by simp [initial_state])

theorem runOp_ok_invariant {s : AtmState} {now : Nat} {op : AtmOp} {s2 : AtmState}
    (hInv : Invariant s) (hy : op.yearsNonneg) (h : runOp s now op = .ok s2) :
    Invariant s2 := by
  obtain ⟨hbal, hdep⟩ := hInv
  cases op with
  | deposit n raw =>
    simp only [runOp] at h
    split at h
    · rename_i s3 r hok
      rw [Except.ok.injEq] at h
      subst h
      obtain ⟨acct, hval, hacc, hs, hr⟩ := deposit_money_ok hok
      subst hs
      obtain ⟨hpos, hle, heq, hscale⟩ := validateAmount_ok hval
      exact ⟨balances_nonneg_update hbal
        (add_nonneg (hbal n acct hacc) (le_of_lt hpos)), hdep⟩
    · exact absurd h (by simp)
  | withdraw n raw =>
    simp only [runOp] at h
    split at h
    · rename_i s3 r hok
      rw [Except.ok.injEq] at h
      subst h
      obtain ⟨acct, hval, hacc, hfunds, hs, hr⟩ := withdraw_money_ok hok
      subst hs
      refine ⟨balances_nonneg_update hbal ?_, hdep⟩
      have := not_lt.mp hfunds
      simpa using sub_nonneg.mpr this
    · exact absurd h (by simp)
  | transfer a b raw =>
    simp only [runOp] at h
    split at h
    · rename_i s3 sa ra hok
      rw [Except.ok.injEq] at h
      subst h
      obtain ⟨hval, hne, hrun⟩ := transfer_money_ep_ok hok
      obtain ⟨A, B, hA, hB, hfunds, hs, hsa, hra⟩ := transfer_money_ok hrun
      subst hs
      obtain ⟨hpos, hle, heq, hscale⟩ := validateAmount_ok hval
      refine ⟨balances_nonneg_update (balances_nonneg_update hbal ?_) ?_, hdep⟩
      · simpa using sub_nonneg.mpr (not_lt.mp hfunds)
      · simpa using add_nonneg (hbal b B hB) (le_of_lt hpos)
    · exact absurd h (by simp)
  | createTD n raw d t id =>
    simp only [runOp] at h
    split at h
    · rename_i s3 td hok
      rw [Except.ok.injEq] at h
      subst h
      obtain ⟨hval, hd1, hd60, hrun⟩ := create_time_deposit_ep_ok hok
      obtain ⟨acct, hacc, hfunds, htd, hs⟩ := create_time_deposit_ok hrun
      subst hs
      subst htd
      obtain ⟨hpos, hle, heq, hscale⟩ := validateAmount_ok hval
      refine ⟨balances_nonneg_put (balances_nonneg_update hbal ?_),
        deposits_wf_put (deposits_wf_update hdep) ?_ ?_⟩
      · simpa using sub_nonneg.mpr (not_lt.mp hfunds)
      · exact le_of_lt hpos
      · exact get_interest_rate_nonneg d
    · exact absurd h (by simp)
  | matureTD id f y =>
    simp only [runOp] at h
    split at h
    · rename_i s3 td2 fin hok
      rw [Except.ok.injEq] at h
      subst h
      obtain ⟨td, acct, htd, hmat, hdate, hacc, hfin, htd2, hs⟩ := mature_time_deposit_ok hok
      subst hs
      obtain ⟨hamt, hrate⟩ := hdep id td htd
      have hy2 : (0 : ℚ) ≤ y := hy
      refine ⟨balances_nonneg_put (balances_nonneg_update hbal ?_),
        deposits_wf_put (deposits_wf_update hdep) hamt hrate⟩
      have hfin2 : 0 ≤ td.amount + td.amount * td.interest_rate * y :=
        add_nonneg hamt (mul_nonneg (mul_nonneg hamt hrate) hy2)
      simpa using add_nonneg (hbal td.account_number acct hacc) hfin2
    · exact absurd h (by simp)

theorem stateAfter_invariant {s : AtmState} {now : Nat} {op : AtmOp}
    (hInv : Invariant s) (hy : op.yearsNonneg) :
    Invariant (stateAfter s (runOp s now op)) := by
  cases h : runOp s now op with
  | ok s2 => exact runOp_ok_invariant hInv hy h
  | error e => exact hInv

theorem runTrace_invariant {s : AtmState} {ops : List (Nat × AtmOp)}
    (hInv : Invariant s) (hy : ∀ p ∈ ops, AtmOp.yearsNonneg p.2) :
    Invariant (runTrace s ops) := by
  induction ops generalizing s with
  | nil => exact hInv
  | cons p rest ih =>
    have h1 : AtmOp.yearsNonneg p.2 := hy p (List.mem_cons_self p rest)
    have h2 : ∀ q ∈ rest, AtmOp.yearsNonneg q.2 := fun q hq => hy q (List.mem_cons_of_mem p hq)
    exact ih (stateAfter_invariant hInv h1) h2

/-- C7: for every requested duration in the validated range 1..60 the
assigned interest rate is that of the smallest table tier whose duration is
at least the requested one, and for any duration beyond 60 months the
largest tier's rate 4.5% is used. -/
theorem interest_rate_tier_selection :
    (∀ d : Nat, 1 ≤ d → d ≤ 60 → IsSmallestTierRate d (get_interest_rate d)) ∧
    (∀ d : Nat, 60 < d → get_interest_rate d = 0.045) := by
  constructor
  · have h : ∀ d : Nat, d ≤ 60 → (1 ≤ d → IsSmallestTierRate d (get_interest_rate d)) := by
      with_unfolding_all decide
    exact fun d h1 h60 => h d h60 h1
  · intro d hd
    have hnone : interest_rates.find? (fun p => decide (d ≤ p.1)) = none := by
      rw [List.find?_eq_none]
      intro x hx
      fin_cases hx <;> simp <;> omega
    unfold get_interest_rate
    rw [hnone]
    with_unfolding_all rfl

/-- Witness: at 7 months the selected tier is the smallest one with
duration at least 7 (the 12-month tier). -/
theorem interest_rate_tier_selection_witness :
    (1 ≤ 7 ∧ 7 ≤ 60) ∧ IsSmallestTierRate 7 (get_interest_rate 7) :=
  ⟨⟨by decide, by decide⟩, interest_rate_tier_selection.1 7 (by decide) (by decide)⟩

/-- C2: for an existing account and a valid amount (positive, at most
10,000.00, at most 2 fraction digits), withdrawal fails with
`InsufficientFunds` carrying the account's balance and the requested amount
exactly when the balance is short — leaving the store unchanged — and
otherwise succeeds with `new_balance = previous_balance - amount`, which is
also the balance the store then holds. -/
theorem withdraw_spec (s : AtmState) (now : Nat) (n : String) (raw : RawDecimal)
    (acct : Account) (hacct : s.accounts n = some acct)
    (hnum : acct.account_number = n)
    (h1 : 0 < raw.toRat) (h2 : raw.toRat ≤ 10000) (h3 : raw.scale ≤ 2) :
    (acct.balance < raw.toRat →
       withdraw_money s now n raw = .error (.insufficientFunds n acct.balance raw.toRat) ∧
       stateAfter s (runOp s now (.withdraw n raw)) = s) ∧
    (¬ acct.balance < raw.toRat →
       respOf (withdraw_money s now n raw) =
         some { account_number := n, previous_balance := acct.balance,
                new_balance := acct.balance - raw.toRat,
                transaction_amount := raw.toRat, timestamp := now } ∧
       balanceIn (stateAfter s (runOp s now (.withdraw n raw))) n =
         some (acct.balance - raw.toRat)) := by
  have hval := validateAmount_valid h1 h2 h3
  constructor
  · intro hless
    constructor
    · simp only [withdraw_money, hval, hacct, if_pos hless]
    · simp only [stateAfter, runOp, withdraw_money, hval, hacct, if_pos hless]
  · intro hge
    constructor
    · simp only [respOf, withdraw_money, hval, hacct, if_neg hge]
    · simp only [balanceIn, stateAfter, runOp, withdraw_money, hval, hacct, if_neg hge,
        update_account_accounts]
      simp [hnum]

/-- Witness, the spec's concrete scenario 2: account `555444` holds 0.00
and `Withdraw(555444, 10.00)` fails with
`InsufficientFunds(555444, 0.00, 10.00)`. -/
theorem withdraw_spec_witness :
    initial_state.accounts "555444" =
      some { account_number := "555444", balance := 0, last_transaction := none } ∧
    ((0 : ℚ) < RawDecimal.toRat ⟨1000, 2⟩ ∧ RawDecimal.toRat ⟨1000, 2⟩ = 10) ∧
    withdraw_money initial_state 7 "555444" ⟨1000, 2⟩ =
      .error (.insufficientFunds "555444" 0 (RawDecimal.toRat ⟨1000, 2⟩)) := by
  refine ⟨by decide, ⟨by with_unfolding_all decide, by with_unfolding_all decide⟩, ?_⟩
  exact (withdraw_spec initial_state 7 "555444" ⟨1000, 2⟩
    { account_number := "555444", balance := 0, last_transaction := none }
    (by decide) rfl (by with_unfolding_all decide)
    (by with_unfolding_all decide) (by decide)).1 (by with_unfolding_all decide) |>.1

/-- C1: a successful transfer between two existing, distinct accounts
decreases the sender's balance by exactly the amount, increases the
recipient's by exactly the amount, and conserves the sum of the two
balances. -/
theorem transfer_conservation (s : AtmState) (now : Nat) (a b : String)
    (raw : RawDecimal) (acctA acctB : Account)
    (ha : s.accounts a = some acctA) (hb : s.accounts b = some acctB)
    (hA : acctA.account_number = a) (hB : acctB.account_number = b)
    (hab : a ≠ b)
    (hok : isOk (transfer_money_ep s now a b raw) = true) :
    balanceIn (runTransfer s now a b raw) a = some (acctA.balance - raw.toRat) ∧
    balanceIn (runTransfer s now a b raw) b = some (acctB.balance + raw.toRat) ∧
    (acctA.balance - raw.toRat) + (acctB.balance + raw.toRat) =
      acctA.balance + acctB.balance := by
  cases hrun : transfer_money_ep s now a b raw with
  | error e => rw [hrun] at hok; exact absurd hok (by simp [isOk])
  | ok t =>
    obtain ⟨s2, sa, ra⟩ := t
    obtain ⟨hval, hne, hcore⟩ := transfer_money_ep_ok hrun
    obtain ⟨A, B, hA2, hB2, hfunds, hs, hsa, hra⟩ := transfer_money_ok hcore
    rw [ha] at hA2
    rw [hb] at hB2
    injection hA2 with hA2
    injection hB2 with hB2
    subst hA2
    subst hB2
    have hrt : runTransfer s now a b raw = s2 := by
      simp only [runTransfer, stateAfter, runOp, hrun]
    refine ⟨?_, ?_, by ring⟩
    · rw [hrt, hs]
      simp only [balanceIn, update_account_accounts]
      simp [hA, hB, hab]
    · rw [hrt, hs]
      simp only [balanceIn, update_account_accounts]
      simp [hA, hB, hab]

/-- Witness: transferring 50.00 from `123456` (1000.00) to `789012`
(500.00) in the seeded store yields balances 950.00 and 550.00, whose sum
equals the prior sum 1500.00. -/
theorem transfer_conservation_witness :
    isOk (transfer_money_ep initial_state 3 "123456" "789012" ⟨5000, 2⟩) = true ∧
    balanceIn (runTransfer initial_state 3 "123456" "789012" ⟨5000, 2⟩) "123456" =
      some (1000 - RawDecimal.toRat ⟨5000, 2⟩) ∧
    balanceIn (runTransfer initial_state 3 "123456" "789012" ⟨5000, 2⟩) "789012" =
      some (500 + RawDecimal.toRat ⟨5000, 2⟩) ∧
    (1000 - RawDecimal.toRat ⟨5000, 2⟩) + (500 + RawDecimal.toRat ⟨5000, 2⟩) =
      (1000 : ℚ) + 500 := by
  have h := transfer_conservation initial_state 3 "123456" "789012" ⟨5000, 2⟩
    { account_number := "123456", balance := 1000, last_transaction := none }
    { account_number := "789012", balance := 500, last_transaction := none }
    (by decide) (by decide) rfl rfl (by decide) (by with_unfolding_all decide)
  exact ⟨by with_unfolding_all decide, h.1, h.2.1, h.2.2⟩

/-- Counterexample to C3: in the reachable store `c3_state` (the seeded
store after 99 valid deposits of 10,000.00) account `123456` holds
991,000.00; a further valid deposit of 10,000.00 would push the balance to
1,001,000.00 > 1,000,000.00, yet the operation succeeds instead of failing
with `LimitExceeded` — no such check (or error) exists in the code. -/
theorem deposit_iter (k : Nat) (s : AtmState) (acct : Account)
    (hacct : s.accounts "123456" = some acct)
    (hnum : acct.account_number = "123456") :
    ∃ acct2,
      (runTrace s (List.replicate k (0, .deposit "123456" ⟨1000000, 2⟩))).accounts "123456" =
        some acct2 ∧
      acct2.account_number = "123456" ∧
      acct2.balance = acct.balance + k * 10000 := by
  induction k generalizing s acct with
  | zero => exact ⟨acct, hacct, hnum, by simp⟩
  | succ k ih =>
    have hval : validateAmount 10000 (⟨1000000, 2⟩ : RawDecimal) =
        .ok (RawDecimal.toRat ⟨1000000, 2⟩) :=
      validateAmount_valid (by norm_num [RawDecimal.toRat])
        (by norm_num [RawDecimal.toRat]) (by decide)
    have hrat : RawDecimal.toRat ⟨1000000, 2⟩ = 10000 := by norm_num [RawDecimal.toRat]
    rw [List.replicate_succ]
    have hstep : stateAfter s (runOp s 0 (.deposit "123456" ⟨1000000, 2⟩)) =
        s.update_account 0 { acct with balance := acct.balance + RawDecimal.toRat ⟨1000000, 2⟩ } := by
      simp only [stateAfter, runOp, deposit_money, hval, hacct]
    have hacct2 : (s.update_account 0
        { acct with balance := acct.balance + RawDecimal.toRat ⟨1000000, 2⟩ }).accounts "123456" =
        some { acct with balance := acct.balance + RawDecimal.toRat ⟨1000000, 2⟩,
                         last_transaction := some 0 } := by
      rw [update_account_accounts]
      simp [hnum]
    obtain ⟨acct2, h1, h2, h3⟩ := ih _ _ hacct2 (by simpa using hnum)
    refine ⟨acct2, ?_, h2, ?_⟩
    · show (runTrace (stateAfter s (runOp s 0 (.deposit "123456" ⟨1000000, 2⟩)))
        (List.replicate k (0, .deposit "123456" ⟨1000000, 2⟩))).accounts "123456" = some acct2
      rw [hstep]
      exact h1
    · rw [h3]
      simp only [hrat]
      push_cast
      ring

/-- Counterexample to C3: in the reachable store `c3_state` (the seeded
store after 99 valid deposits of 10,000.00 into `123456`) the account
holds 991,000.00; depositing a further valid 10,000.00 would exceed the
1,000,000.00 ceiling, yet the operation succeeds and stores 1,001,000.00 —
there is no `LimitExceeded` failure in the code. -/
theorem deposit_limit_cex :
    balanceIn c3_state "123456" = some 991000 ∧
    (1000000 : ℚ) < 991000 + RawDecimal.toRat ⟨1000000, 2⟩ ∧
    isOk (deposit_money c3_state 0 "123456" ⟨1000000, 2⟩) = true ∧
    balanceIn (stateAfter c3_state (runOp c3_state 0 (.deposit "123456" ⟨1000000, 2⟩)))
      "123456" = some 1001000 := by
  obtain ⟨acct2, hacc, hnum2, hbal⟩ := deposit_iter 99 initial_state
    { account_number := "123456", balance := 1000, last_transaction := none }
    (by decide) rfl
  have hbal2 : acct2.balance = 991000 := by rw [hbal]; norm_num
  have hval : validateAmount 10000 (⟨1000000, 2⟩ : RawDecimal) =
      .ok (RawDecimal.toRat ⟨1000000, 2⟩) :=
    validateAmount_valid (by norm_num [RawDecimal.toRat])
      (by norm_num [RawDecimal.toRat]) (by decide)
  have hrat : RawDecimal.toRat ⟨1000000, 2⟩ = 10000 := by norm_num [RawDecimal.toRat]
  have hc3 : c3_state.accounts "123456" = some acct2 := hacc
  refine ⟨?_, ?_, ?_, ?_⟩
  · rw [balanceIn, hc3]
    simp [hbal2]
  · rw [hrat]
    norm_num
  · simp [isOk, deposit_money, hval, hc3]
  · simp only [balanceIn, stateAfter, runOp, deposit_money, hval, hc3,
      update_account_accounts]
    simp [hnum2, hbal2, hrat]
    norm_num

/-- C3 amended: a valid deposit (positive, at most 10,000.00, at most 2
fraction digits) to an existing account always succeeds with
`balance_after = balance_before + amount`; the 1,000,000.00 balance
ceiling is never checked by the deposit endpoint, so no `LimitExceeded`
failure path exists and balances may exceed it. -/
theorem deposit_always_adds (s : AtmState) (now : Nat) (n : String) (raw : RawDecimal)
    (acct : Account) (hacct : s.accounts n = some acct)
    (hnum : acct.account_number = n)
    (h1 : 0 < raw.toRat) (h2 : raw.toRat ≤ 10000) (h3 : raw.scale ≤ 2) :
    respOf (deposit_money s now n raw) =
      some { account_number := n, previous_balance := acct.balance,
             new_balance := acct.balance + raw.toRat,
             transaction_amount := raw.toRat, timestamp := now } ∧
    balanceIn (stateAfter s (runOp s now (.deposit n raw))) n =
      some (acct.balance + raw.toRat) := by
  have hval := validateAmount_valid h1 h2 h3
  constructor
  · simp only [respOf, deposit_money, hval, hacct]
  · simp only [balanceIn, stateAfter, runOp, deposit_money, hval, hacct,
      update_account_accounts]
    simp [hnum]

/-- Witness: depositing 50.00 into `123456` (1000.00) in the seeded store
succeeds with new balance 1050.00. -/
theorem deposit_always_adds_witness :
    initial_state.accounts "123456" =
      some { account_number := "123456", balance := 1000, last_transaction := none } ∧
    ((0 : ℚ) < RawDecimal.toRat ⟨5000, 2⟩ ∧ RawDecimal.toRat ⟨5000, 2⟩ ≤ 10000) ∧
    balanceIn (stateAfter initial_state (runOp initial_state 4 (.deposit "123456" ⟨5000, 2⟩)))
      "123456" = some (1000 + RawDecimal.toRat ⟨5000, 2⟩) := by
  refine ⟨by decide, ⟨by with_unfolding_all decide, by with_unfolding_all decide⟩, ?_⟩
  exact (deposit_always_adds initial_state 4 "123456" ⟨5000, 2⟩
    { account_number := "123456", balance := 1000, last_transaction := none }
    (by decide) rfl (by with_unfolding_all decide) (by with_unfolding_all decide)
    (by decide)).2

/-- C5: for a validated transfer amount, a transfer to the same account
fails with `SameAccount`; a missing account fails with `AccountNotFound`
naming whichever of sender/recipient is missing, the sender being checked
first; a short sender balance fails with `InsufficientFunds`; and no
failing transfer changes the store. -/
theorem transfer_failure_modes :
    (∀ (s : AtmState) (now : Nat) (a : String) (raw : RawDecimal),
       0 < raw.toRat → raw.toRat ≤ 10000 → raw.scale ≤ 2 →
       transfer_money_ep s now a a raw = .error .sameAccount) ∧
    (∀ (s : AtmState) (now : Nat) (a b : String) (raw : RawDecimal),
       0 < raw.toRat → raw.toRat ≤ 10000 → raw.scale ≤ 2 → a ≠ b →
       s.accounts a = none →
       transfer_money_ep s now a b raw = .error (.accountNotFound a)) ∧
    (∀ (s : AtmState) (now : Nat) (a b : String) (raw : RawDecimal) (acctA : Account),
       0 < raw.toRat → raw.toRat ≤ 10000 → raw.scale ≤ 2 → a ≠ b →
       s.accounts a = some acctA → s.accounts b = none →
       transfer_money_ep s now a b raw = .error (.accountNotFound b)) ∧
    (∀ (s : AtmState) (now : Nat) (a b : String) (raw : RawDecimal)
       (acctA acctB : Account),
       0 < raw.toRat → raw.toRat ≤ 10000 → raw.scale ≤ 2 → a ≠ b →
       s.accounts a = some acctA → s.accounts b = some acctB →
       acctA.balance < raw.toRat →
       transfer_money_ep s now a b raw =
         .error (.insufficientFunds a acctA.balance raw.toRat)) ∧
    (∀ (s : AtmState) (now : Nat) (a b : String) (raw : RawDecimal) (e : AtmError),
       runOp s now (.transfer a b raw) = .error e →
       stateAfter s (runOp s now (.transfer a b raw)) = s) := by
  refine ⟨?_, ?_, ?_, ?_, ?_⟩
  · intro s now a raw h1 h2 h3
    have hval := validateAmount_valid h1 h2 h3
    simp [transfer_money_ep, hval]
  · intro s now a b raw h1 h2 h3 hab ha
    have hval := validateAmount_valid h1 h2 h3
    simp [transfer_money_ep, hval, hab, transfer_money, ha]
  · intro s now a b raw acctA h1 h2 h3 hab ha hb
    have hval := validateAmount_valid h1 h2 h3
    simp [transfer_money_ep, hval, hab, transfer_money, ha, hb]
  · intro s now a b raw acctA acctB h1 h2 h3 hab ha hb hless
    have hval := validateAmount_valid h1 h2 h3
    simp [transfer_money_ep, hval, hab, transfer_money, ha, hb, hless]
  · intro s now a b raw e h
    rw [h]
    rfl

/-- Witness: transferring 1.00 from the non-existent account `999999` to
`123456` in the seeded store fails with `AccountNotFound(999999)`. -/
theorem transfer_failure_modes_witness :
    ((0 : ℚ) < RawDecimal.toRat ⟨100, 2⟩ ∧ RawDecimal.toRat ⟨100, 2⟩ ≤ 10000 ∧
      initial_state.accounts "999999" = none) ∧
    transfer_money_ep initial_state 2 "999999" "123456" ⟨100, 2⟩ =
      .error (.accountNotFound "999999") := by
  refine ⟨⟨by norm_num [RawDecimal.toRat], by norm_num [RawDecimal.toRat], by decide⟩, ?_⟩
  exact transfer_failure_modes.2.1 initial_state 2 "999999" "123456" ⟨100, 2⟩
    (by norm_num [RawDecimal.toRat]) (by norm_num [RawDecimal.toRat]) (by decide)
    (by decide) (by decide)

/-- C8: an amount with more than 2 fraction digits, non-positive, or above
the operation ceiling (10,000.00 for deposit/withdraw/transfer, 100,000.00
for time deposits) is rejected with `InvalidAmount` by the request
validation layer, before any store access; any failed operation leaves the
store exactly as it was. -/
theorem invalid_amount_rejection :
    (∀ (s : AtmState) (now : Nat) (n : String) (raw : RawDecimal),
       (2 < raw.scale ∨ raw.toRat ≤ 0 ∨ 10000 < raw.toRat) →
       deposit_money s now n raw = .error (.invalidAmount raw.toRat) ∧
       withdraw_money s now n raw = .error (.invalidAmount raw.toRat)) ∧
    (∀ (s : AtmState) (now : Nat) (a b : String) (raw : RawDecimal),
       (2 < raw.scale ∨ raw.toRat ≤ 0 ∨ 10000 < raw.toRat) →
       transfer_money_ep s now a b raw = .error (.invalidAmount raw.toRat)) ∧
    (∀ (s : AtmState) (now : Nat) (id n : String) (raw : RawDecimal) (d : Nat) (t : Bool),
       (2 < raw.scale ∨ raw.toRat ≤ 0 ∨ 100000 < raw.toRat) →
       create_time_deposit_ep s now id n raw d t = .error (.invalidAmount raw.toRat)) ∧
    (∀ (s : AtmState) (now : Nat) (op : AtmOp) (e : AtmError),
       runOp s now op = .error e → stateAfter s (runOp s now op) = s) := by
  refine ⟨?_, ?_, ?_, ?_⟩
  · intro s now n raw h
    have hval := validateAmount_invalid h
    exact ⟨by simp [deposit_money, hval], by simp [withdraw_money, hval]⟩
  · intro s now a b raw h
    have hval := validateAmount_invalid h
    simp [transfer_money_ep, hval]
  · intro s now id n raw d t h
    have hval := validateAmount_invalid h
    simp [create_time_deposit_ep, hval]
  · intro s now op e h
    rw [h]
    rfl

/-- Witness, the spec's rejection-boundary example: 100.123 has three
fraction digits, so withdrawing or depositing it in the seeded store is
rejected with `InvalidAmount` and the store is unchanged. -/
theorem invalid_amount_rejection_witness :
    (2 < (⟨100123, 3⟩ : RawDecimal).scale) ∧
    deposit_money initial_state 0 "123456" ⟨100123, 3⟩ =
      .error (.invalidAmount (RawDecimal.toRat ⟨100123, 3⟩)) ∧
    withdraw_money initial_state 0 "123456" ⟨100123, 3⟩ =
      .error (.invalidAmount (RawDecimal.toRat ⟨100123, 3⟩)) := by
  have h := invalid_amount_rejection.1 initial_state 0 "123456" ⟨100123, 3⟩
    (Or.inl (by decide))
  exact ⟨by decide, h.1, h.2⟩

theorem put_time_deposit_lookup (s : AtmState) (id : String) (td : TimeDeposit) (k : String) :
    (s.put_time_deposit id td).time_deposits k =
      if k = id then some td else s.time_deposits k := rfl

/-- C9: maturing an unknown deposit id fails with not-found; maturing an
already-matured deposit fails with already-matured and leaves the store
unchanged; maturing an active deposit before its maturity date without the
force flag fails with not-yet-mature; and a matured deposit stays matured
across every operation (deposit ids of creations being fresh), so the
`Active -> Matured` transition is terminal. -/
theorem time_deposit_state_machine :
    (∀ (s : AtmState) (now : Nat) (id : String) (f : Bool) (y : ℚ),
       s.time_deposits id = none →
       mature_time_deposit s now id f y = .error (.depositNotFound id)) ∧
    (∀ (s : AtmState) (now : Nat) (id : String) (f : Bool) (y : ℚ) (td : TimeDeposit),
       s.time_deposits id = some td → td.is_matured = true →
       mature_time_deposit s now id f y = .error (.alreadyMatured id) ∧
       stateAfter s (runOp s now (.matureTD id f y)) = s) ∧
    (∀ (s : AtmState) (now : Nat) (id : String) (y : ℚ) (td : TimeDeposit),
       s.time_deposits id = some td → td.is_matured = false →
       now < td.maturity_date →
       mature_time_deposit s now id false y = .error (.notYetMature id)) ∧
    (∀ (s : AtmState) (now : Nat) (op : AtmOp) (id : String) (td : TimeDeposit),
       s.time_deposits id = some td → td.is_matured = true → op.freshId s →
       tdMatured (stateAfter s (runOp s now op)) id = some true) := by
  refine ⟨?_, ?_, ?_, ?_⟩
  · intro s now id f y h
    simp [mature_time_deposit, h]
  · intro s now id f y td h hmat
    refine ⟨by simp [mature_time_deposit, h, hmat], ?_⟩
    have herr : mature_time_deposit s now id f y = .error (.alreadyMatured id) := by
      simp [mature_time_deposit, h, hmat]
    simp only [stateAfter, runOp, herr]
  · intro s now id y td h hmat hdate
    simp [mature_time_deposit, h, hmat, hdate]
  · intro s now op id td h hmat hfresh
    have hsame : ∀ s2 : AtmState, s2.time_deposits id = s.time_deposits id →
        tdMatured s2 id = some true := by
      intro s2 hs2
      rw [tdMatured, hs2, h]
      simp [hmat]
    cases op with
    | deposit n raw =>
      cases hrun : deposit_money s now n raw with
      | ok t =>
        obtain ⟨s2, r⟩ := t
        obtain ⟨acct, hval, hacc, hs, hr⟩ := deposit_money_ok hrun
        have : stateAfter s (runOp s now (.deposit n raw)) = s2 := by
          simp only [stateAfter, runOp, hrun]
        rw [this, hs]
        exact hsame _ rfl
      | error e =>
        have : stateAfter s (runOp s now (.deposit n raw)) = s := by
          simp only [stateAfter, runOp, hrun]
        rw [this]
        exact hsame s rfl
    | withdraw n raw =>
      cases hrun : withdraw_money s now n raw with
      | ok t =>
        obtain ⟨s2, r⟩ := t
        obtain ⟨acct, hval, hacc, hfunds, hs, hr⟩ := withdraw_money_ok hrun
        have : stateAfter s (runOp s now (.withdraw n raw)) = s2 := by
          simp only [stateAfter, runOp, hrun]
        rw [this, hs]
        exact hsame _ rfl
      | error e =>
        have : stateAfter s (runOp s now (.withdraw n raw)) = s := by
          simp only [stateAfter, runOp, hrun]
        rw [this]
        exact hsame s rfl
    | transfer a b raw =>
      cases hrun : transfer_money_ep s now a b raw with
      | ok t =>
        obtain ⟨s2, sa, ra⟩ := t
        obtain ⟨hval, hne, hcore⟩ := transfer_money_ep_ok hrun
        obtain ⟨A, B, hA, hB, hfunds, hs, hsa, hra⟩ := transfer_money_ok hcore
        have : stateAfter s (runOp s now (.transfer a b raw)) = s2 := by
          simp only [stateAfter, runOp, hrun]
        rw [this, hs]
        exact hsame _ rfl
      | error e =>
        have : stateAfter s (runOp s now (.transfer a b raw)) = s := by
          simp only [stateAfter, runOp, hrun]
        rw [this]
        exact hsame s rfl
    | createTD n raw d t did =>
      cases hrun : create_time_deposit_ep s now did n raw d t with
      | ok u =>
        obtain ⟨s2, td2⟩ := u
        obtain ⟨hval, hd1, hd60, hcore⟩ := create_time_deposit_ep_ok hrun
        obtain ⟨acct, hacc, hfunds, htd2, hs⟩ := create_time_deposit_ok hcore
        have hstep : stateAfter s (runOp s now (.createTD n raw d t did)) = s2 := by
          simp only [stateAfter, runOp, hrun]
        rw [hstep, hs]
        have hne : id ≠ did := by
          intro hcontra
          have : s.time_deposits did = none := hfresh
          rw [← hcontra, h] at this
          exact Option.noConfusion this
        apply hsame
        rw [put_time_deposit_lookup, if_neg hne]
        rfl
      | error e =>
        have : stateAfter s (runOp s now (.createTD n raw d t did)) = s := by
          simp only [stateAfter, runOp, hrun]
        rw [this]
        exact hsame s rfl
    | matureTD did f y =>
      cases hrun : mature_time_deposit s now did f y with
      | ok u =>
        obtain ⟨s2, td2, fin⟩ := u
        obtain ⟨td3, acct, htd3, hmat3, hdate3, hacc3, hfin, htd2, hs⟩ :=
          mature_time_deposit_ok hrun
        have hstep : stateAfter s (runOp s now (.matureTD did f y)) = s2 := by
          simp only [stateAfter, runOp, hrun]
        rw [hstep, hs]
        by_cases hid : id = did
        · subst hid
          rw [tdMatured, put_time_deposit_lookup, if_pos rfl]
          simp
        · apply hsame
          rw [put_time_deposit_lookup, if_neg hid]
          rfl
      | error e =>
        have : stateAfter s (runOp s now (.matureTD did f y)) = s := by
          simp only [stateAfter, runOp, hrun]
        rw [this]
        exact hsame s rfl

/-- Witness: maturing the unknown deposit id `nope` against the seeded
store fails with not-found. -/
theorem time_deposit_state_machine_witness :
    initial_state.time_deposits "nope" = none ∧
    mature_time_deposit initial_state 0 "nope" false 0 =
      .error (.depositNotFound "nope") :=
  ⟨by decide, time_deposit_state_machine.1 initial_state 0 "nope" false 0 (by decide)⟩

/-- C10: a successful deposit or withdrawal rewrites only the named
account, a successful transfer only the two named accounts — every other
account keeps its exact prior record — and each affected account's
`last_transaction` is set to the operation time (hence non-`None`); a
failed operation leaves the whole store, `last_transaction` included,
unchanged. -/
theorem frame_property :
    (∀ (s : AtmState) (now : Nat) (n : String) (raw : RawDecimal) (acct : Account),
       s.accounts n = some acct → acct.account_number = n →
       isOk (deposit_money s now n raw) = true →
       AgreesOutside s (stateAfter s (runOp s now (.deposit n raw))) [n] ∧
       StampedAt (stateAfter s (runOp s now (.deposit n raw))) [n] now) ∧
    (∀ (s : AtmState) (now : Nat) (n : String) (raw : RawDecimal) (acct : Account),
       s.accounts n = some acct → acct.account_number = n →
       isOk (withdraw_money s now n raw) = true →
       AgreesOutside s (stateAfter s (runOp s now (.withdraw n raw))) [n] ∧
       StampedAt (stateAfter s (runOp s now (.withdraw n raw))) [n] now) ∧
    (∀ (s : AtmState) (now : Nat) (a b : String) (raw : RawDecimal)
       (acctA acctB : Account),
       s.accounts a = some acctA → s.accounts b = some acctB →
       acctA.account_number = a → acctB.account_number = b →
       isOk (transfer_money_ep s now a b raw) = true →
       AgreesOutside s (runTransfer s now a b raw) [a, b] ∧
       StampedAt (runTransfer s now a b raw) [a, b] now) ∧
    (∀ (s : AtmState) (now : Nat) (op : AtmOp) (e : AtmError),
       runOp s now op = .error e → stateAfter s (runOp s now op) = s) := by
  refine ⟨?_, ?_, ?_, ?_⟩
  · intro s now n raw acct hacct hnum hok
    cases hrun : deposit_money s now n raw with
    | error e => rw [hrun] at hok; exact absurd hok (by simp [isOk])
    | ok t =>
      obtain ⟨s2, r⟩ := t
      obtain ⟨acct2, hval, hacc2, hs, hr⟩ := deposit_money_ok hrun
      rw [hacct] at hacc2
      injection hacc2 with hacc2
      subst hacc2
      have hstep : stateAfter s (runOp s now (.deposit n raw)) = s2 := by
        simp only [stateAfter, runOp, hrun]
      rw [hstep, hs]
      constructor
      · intro k hk
        have hkn : k ≠ n := by simpa using hk
        rw [update_account_accounts]
        simp [hnum, hkn]
      · intro k hk
        have hkn : k = n := by simpa using hk
        subst hkn
        rw [update_account_accounts]
        have h2 : k = ({ acct with balance := acct.balance + raw.toRat }).account_number := by
          simpa using hnum.symm
        rw [if_pos h2]
        exact ⟨_, rfl, rfl⟩
  · intro s now n raw acct hacct hnum hok
    cases hrun : withdraw_money s now n raw with
    | error e => rw [hrun] at hok; exact absurd hok (by simp [isOk])
    | ok t =>
      obtain ⟨s2, r⟩ := t
      obtain ⟨acct2, hval, hacc2, hfunds, hs, hr⟩ := withdraw_money_ok hrun
      rw [hacct] at hacc2
      injection hacc2 with hacc2
      subst hacc2
      have hstep : stateAfter s (runOp s now (.withdraw n raw)) = s2 := by
        simp only [stateAfter, runOp, hrun]
      rw [hstep, hs]
      constructor
      · intro k hk
        have hkn : k ≠ n := by simpa using hk
        rw [update_account_accounts]
        simp [hnum, hkn]
      · intro k hk
        have hkn : k = n := by simpa using hk
        subst hkn
        rw [update_account_accounts]
        have h2 : k = ({ acct with balance := acct.balance - raw.toRat }).account_number := by
          simpa using hnum.symm
        rw [if_pos h2]
        exact ⟨_, rfl, rfl⟩
  · intro s now a b raw acctA acctB ha hb hA hB hok
    cases hrun : transfer_money_ep s now a b raw with
    | error e => rw [hrun] at hok; exact absurd hok (by simp [isOk])
    | ok t =>
      obtain ⟨s2, sa, ra⟩ := t
      obtain ⟨hval, hne, hcore⟩ := transfer_money_ep_ok hrun
      obtain ⟨A, B, hA2, hB2, hfunds, hs, hsa, hra⟩ := transfer_money_ok hcore
      rw [ha] at hA2
      rw [hb] at hB2
      injection hA2 with hA2
      injection hB2 with hB2
      subst hA2
      subst hB2
      have hstep : runTransfer s now a b raw = s2 := by
        simp only [runTransfer, stateAfter, runOp, hrun]
      rw [hstep, hs]
      constructor
      · intro k hk
        have hkab : k ≠ a ∧ k ≠ b := by
          constructor <;> (intro hcontra; subst hcontra; simp at hk)
        rw [update_account_accounts, update_account_accounts]
        simp [hA, hB, hkab.1, hkab.2]
      · intro k hk
        have hkab : k = a ∨ k = b := by simpa using hk
        rcases hkab with hka | hkb
        · subst hka
          rw [update_account_accounts]
          have : ¬ k = ({ acctB with balance := acctB.balance + raw.toRat }).account_number := by
            simpa [hB] using hne
          rw [if_neg this, update_account_accounts]
          have h2 : k = ({ acctA with balance := acctA.balance - raw.toRat }).account_number := by
            simpa using hA.symm
          rw [if_pos h2]
          exact ⟨_, rfl, rfl⟩
        · subst hkb
          rw [update_account_accounts]
          have h2 : k = ({ acctB with balance := acctB.balance + raw.toRat }).account_number := by
            simpa using hB.symm
          rw [if_pos h2]
          exact ⟨_, rfl, rfl⟩
  · intro s now op e h
    rw [h]
    rfl

/-- Witness: a 50.00 deposit into `123456` in the seeded store touches
only that account and stamps its `last_transaction` with the operation
time. -/
theorem frame_property_witness :
    initial_state.accounts "123456" =
      some { account_number := "123456", balance := 1000, last_transaction := none } ∧
    isOk (deposit_money initial_state 5 "123456" ⟨5000, 2⟩) = true ∧
    AgreesOutside initial_state
      (stateAfter initial_state (runOp initial_state 5 (.deposit "123456" ⟨5000, 2⟩)))
      ["123456"] ∧
    StampedAt (stateAfter initial_state (runOp initial_state 5 (.deposit "123456" ⟨5000, 2⟩)))
      ["123456"] 5 := by
  have h := frame_property.1 initial_state 5 "123456" ⟨5000, 2⟩
    { account_number := "123456", balance := 1000, last_transaction := none }
    (by decide) rfl (by with_unfolding_all decide)
  exact ⟨by decide, by with_unfolding_all decide, h.1, h.2⟩

/-- C4 amended: maturing an active time deposit with the force flag
credits exactly `amount + amount × interest_rate × years` back to the
owning account with no rounding step, where `years` embeds
`Decimal(str(duration_months / 12))` and equals `duration_months / 12`
exactly whenever the duration is a multiple of 3. -/
theorem mature_final_amount (s : AtmState) (now : Nat) (id : String) (y : ℚ)
    (td : TimeDeposit) (acct : Account)
    (htd : s.time_deposits id = some td) (hmat : td.is_matured = false)
    (hacct : s.accounts td.account_number = some acct)
    (hnum : acct.account_number = td.account_number)
    (h3 : 3 ∣ td.duration_months) (hy : y = (td.duration_months : ℚ) / 12) :
    finalAmountOf (mature_time_deposit s now id true y) =
      some (td.amount + td.amount * td.interest_rate * ((td.duration_months : ℚ) / 12)) ∧
    balanceIn (stateAfter s (runOp s now (.matureTD id true y)))
        td.account_number =
      some (acct.balance +
        (td.amount + td.amount * td.interest_rate * ((td.duration_months : ℚ) / 12))) := by
  subst hy
  constructor
  · simp only [finalAmountOf, mature_time_deposit, htd, hacct]
    simp [hmat]
  · simp only [balanceIn, stateAfter, runOp, mature_time_deposit, htd, hacct]
    simp [hmat, hnum, put_time_deposit_accounts, update_account_accounts]

/-- Counterexample to C4: a 100.01 deposit for 3 months (rate 1.5%,
`years = 0.25` exactly) is credited back as
`100.01 + 100.01 × 0.015 × 0.25 = 100.3850375` — more than 2 fraction
digits and not equal to the round-half-up value 100.39 the claim
prescribes; the code performs no rounding at all. -/
theorem mature_rounding_cex :
    get_interest_rate 3 = 0.015 ∧
    finalAmountOf c4_run = some 100.3850375 ∧
    spec_final_amount 100.01 0.015 3 = 100.39 ∧
    finalAmountOf c4_run ≠ some (spec_final_amount 100.01 0.015 3) := by
  have h1 : get_interest_rate 3 = 0.015 := by with_unfolding_all rfl
  have h2 : finalAmountOf c4_run = some 100.3850375 := by
    have hrate : get_interest_rate 3 = 0.015 := by with_unfolding_all rfl
    norm_num [c4_run, create_time_deposit_ep, create_time_deposit, mature_time_deposit,
      validateAmount, validateDuration, finalAmountOf, RawDecimal.toRat, hrate,
      AtmState.update_account, AtmState.put_time_deposit, initial_state, initial_accounts]
  have h3 : spec_final_amount 100.01 0.015 3 = 100.39 := by
    rw [spec_final_amount, round_half_up_2]
    norm_num
  refine ⟨h1, h2, h3, ?_⟩
  rw [h2, h3]
  intro hcontra
  injection hcontra with hcontra
  norm_num at hcontra

/-- Witness, the spec's concrete scenario 3: with the 100.00 / 12-month
deposit active (rate 2.5%) and the account at 900.00, forced maturation
credits exactly `100.00 + 100.00 × 0.025 × 1 = 102.50`, leaving the
account at 1002.50. -/
theorem mature_final_amount_witness :
    scenario3_state.time_deposits "dep1" =
      some { deposit_id := "dep1", account_number := "123456", amount := 100,
             duration_months := 12, interest_rate := get_interest_rate 12,
             maturity_date := 12 * 30 * 86400, is_matured := false } ∧
    get_interest_rate 12 = 0.025 ∧
    finalAmountOf (mature_time_deposit scenario3_state 1 "dep1" true 1) = some 102.5 ∧
    balanceIn (stateAfter scenario3_state (runOp scenario3_state 1 (.matureTD "dep1" true 1)))
      "123456" = some (900 + 102.5) := by
  have hrate : get_interest_rate 12 = 0.025 := by with_unfolding_all rfl
  have h := mature_final_amount scenario3_state 1 "dep1" 1
    { deposit_id := "dep1", account_number := "123456", amount := 100,
      duration_months := 12, interest_rate := get_interest_rate 12,
      maturity_date := 12 * 30 * 86400, is_matured := false }
    { account_number := "123456", balance := 900, last_transaction := some 0 }
    rfl rfl rfl rfl ⟨4, rfl⟩ (by norm_num)
  refine ⟨rfl, hrate, ?_, ?_⟩
  · have h1 := h.1
    rw [hrate] at h1
    norm_num at h1
    convert h1 using 2
    norm_num
  · have h2 := h.2
    rw [hrate] at h2
    norm_num at h2
    convert h2 using 2
    norm_num

/-- C6: the seeded store has only non-negative balances, every operation —
succeeding or failing — preserves the store invariant (non-negative
balances, well-formed stored deposits), and hence along any trace of
operations from the seeded store every account balance stays
non-negative.  (`yearsNonneg` holds of every years factor
`Decimal(str(duration_months / 12))` the source can produce.) -/
theorem balances_nonneg_invariant :
    BalancesNonneg initial_state ∧
    (∀ (s : AtmState) (now : Nat) (op : AtmOp), Invariant s → op.yearsNonneg →
       Invariant (stateAfter s (runOp s now op))) ∧
    (∀ ops : List (Nat × AtmOp), (∀ p ∈ ops, AtmOp.yearsNonneg p.2) →
       BalancesNonneg (runTrace initial_state ops)) := by
  refine ⟨initial_state_invariant.1,
    fun s now op hI hy => stateAfter_invariant hI hy, ?_⟩
  intro ops hy
  exact (runTrace_invariant initial_state_invariant hy).1

/-- Witness: after a deposit, a withdrawal, a transfer, a time-deposit
creation and a forced maturation, every balance in the store is still
non-negative. -/
theorem balances_nonneg_invariant_witness :
    BalancesNonneg (runTrace initial_state
      [(1, .deposit "123456" ⟨5000, 2⟩), (2, .withdraw "123456" ⟨2500, 2⟩),
       (3, .transfer "123456" "789012" ⟨1000, 2⟩),
       (4, .createTD "123456" ⟨10000, 2⟩ 12 false "dep9"),
       (5, .matureTD "dep9" true 1)]) :=
  balances_nonneg_invariant.2.2 _ (by with_unfolding_all decide)
